import Mathlib

/-!
Shallow embedding of the presence-session core of `solo/manager/cmd/server.go`
(kajiLabTeam/elpis_infra): confidence fusion, room resolution, the
presence-session state machine over the `user_presence_sessions` table, and
the stale-session reaper.

Modelling conventions:
* Timestamps are `Int` (the Go code only compares and stores `time.Time`
  values; only their total order matters here).
* The `user_presence_sessions` table is a `List Session` in insertion order;
  `INSERT` appends, `UPDATE ... WHERE` is a pointwise `map`.
* A failing database statement mutates nothing and reports an error; database
  failure is injected through an explicit `dbFail` flag where a claim needs it.
* The fingerprint index (`beacons` / `wifi_access_points` tables) is a pair of
  lookup functions keyed by the SQL-normalised identifier (`UPPER` for beacon
  UUIDs, `LOWER` for WiFi BSSIDs), returning `none` for `sql.ErrNoRows`.
-/

namespace Elpis

/-- One row of `user_presence_sessions`. `endTime = none` models
`end_time IS NULL` (an open session). -/
structure Session where
  userId : Int
  roomId : Int
  startTime : Int
  lastSeen : Int
  endTime : Option Int
deriving DecidableEq, Repr

/-- The sessions table, in insertion order. -/
abbrev Store := List Session

/-- `startUserSession` (server.go): unconditional
`INSERT INTO user_presence_sessions (user_id, room_id, start_time, last_seen)
VALUES ($1, $2, $3, $3)`; `end_time` is left NULL. -/
def startUserSession (store : Store) (userId roomId startTime : Int) : Store :=
  store ++ [⟨userId, roomId, startTime, startTime, none⟩]

/-- `endUserSession` (server.go): `UPDATE user_presence_sessions SET end_time = $1
WHERE user_id = $2 AND end_time IS NULL`. Affecting zero rows is not an error. -/
def endUserSession (store : Store) (userId endTime : Int) : Store :=
  store.map fun s =>
    if s.userId = userId ∧ s.endTime = none then { s with endTime := some endTime } else s

/-- `updateLastSeen` (server.go): `UPDATE user_presence_sessions SET last_seen = $1
WHERE user_id = $2 AND end_time IS NULL`. Affecting zero rows is not an error. -/
def updateLastSeen (store : Store) (userId lastSeen : Int) : Store :=
  store.map fun s =>
    if s.userId = userId ∧ s.endTime = none then { s with lastSeen := lastSeen } else s

/-- The `SELECT room_id FROM user_presence_sessions WHERE user_id = $1 AND
end_time IS NULL` read inside `updateUserPresence`: first open row of the user,
`none` models `sql.ErrNoRows`. -/
def getOpenSession (store : Store) (userId : Int) : Option Session :=
  store.find? fun s => s.userId = userId ∧ s.endTime = none

/-- `updateUserPresence` (server.go): if the inquiry confidence exceeds the
estimation confidence the session is ended; otherwise the user's open session
is read, a new session is started when none exists (`sql.ErrNoRows`), and
`last_seen` is refreshed when one does. -/
def updateUserPresence (store : Store) (userId estimationConfidence inquiryConfidence
    lastSeen roomId : Int) : Store :=
  if estimationConfidence < inquiryConfidence then
    endUserSession store userId lastSeen
  else
    match getOpenSession store userId with
    | none => startUserSession store userId roomId lastSeen
    | some _ => updateLastSeen store userId lastSeen

/-- Number of open rows (`end_time IS NULL`) of one user. -/
def openCount (store : Store) (userId : Int) : Nat :=
  (store.filter fun s => s.userId = userId ∧ s.endTime = none).length

example : openCount (startUserSession [] 1 5 10) 1 = 1 := by decide
example : openCount (endUserSession (startUserSession [] 1 5 10) 1 20) 1 = 0 := by decide
example : getOpenSession (startUserSession [] 1 5 10) 1 =
    some ⟨1, 5, 10, 10, none⟩ := by decide

/-! ## Room resolution (`determineRoomID` and its lookups) -/

/-- A parsed BLE observation: service UUID plus RSSI. (The RSSI is a float in
the Go code but is only ever logged, so its numeric type is irrelevant.) -/
structure BeaconSignal where
  uuid : String
  rssi : Int
deriving DecidableEq, Repr

/-- A parsed WiFi observation: BSSID plus RSSI (the RSSI is only logged). -/
structure WiFiSignal where
  bssid : String
  rssi : Int
deriving DecidableEq, Repr

/-- SQL `UPPER(x)`: uppercase every character (as a character list, which is
what the kernel can evaluate). -/
def upperKey (s : String) : List Char :=
  s.data.map Char.toUpper

/-- SQL `LOWER(x)`: lowercase every character. -/
def lowerKey (s : String) : List Char :=
  s.data.map Char.toLower

/-- The fingerprint index: the `beacons` and `wifi_access_points` tables.
`beaconRoom` is keyed by `UPPER(service_uuid)` and `wifiRoom` by
`LOWER(bssid)`, as in the two SQL queries; `none` models `sql.ErrNoRows`. -/
structure FingerprintIndex where
  beaconRoom : List Char → Option Int
  wifiRoom : List Char → Option Int

/-- `getRoomIDByBeacon` (server.go): `SELECT room_id FROM beacons WHERE
UPPER(service_uuid) = UPPER($1) LIMIT 1`. -/
def getRoomIDByBeacon (idx : FingerprintIndex) (beacon : BeaconSignal) : Option Int :=
  idx.beaconRoom (upperKey beacon.uuid)

/-- `getRoomIDByWifi` (server.go): `SELECT room_id FROM wifi_access_points WHERE
LOWER(bssid) = LOWER($1) LIMIT 1`. -/
def getRoomIDByWifi (idx : FingerprintIndex) (wifi : WiFiSignal) : Option Int :=
  idx.wifiRoom (lowerKey wifi.bssid)

/-- The BLE loop of `determineRoomID`: `var bleRoomID int` starts at 0, a
failed lookup `continue`s, the first successful lookup assigns and `break`s
(even when the looked-up room id is 0). -/
def firstRoomBLE (idx : FingerprintIndex) : List BeaconSignal → Int
  | [] => 0
  | beacon :: rest =>
    match getRoomIDByBeacon idx beacon with
    | none => firstRoomBLE idx rest
    | some roomID => roomID

/-- The WiFi loop of `determineRoomID`, same shape as the BLE loop. -/
def firstRoomWifi (idx : FingerprintIndex) : List WiFiSignal → Int
  | [] => 0
  | wifi :: rest =>
    match getRoomIDByWifi idx wifi with
    | none => firstRoomWifi idx rest
    | some roomID => roomID

/-- Failure modes of `determineRoomID` (two distinct error messages in the Go
code: no signals at all, and no index hit). -/
inductive ResolveError where
  | noSignalData
  | noMatch
deriving DecidableEq, Repr

/-- `determineRoomID` (server.go), after CSV parsing (out of scope): error if
both signal lists are empty, otherwise run both first-hit loops and return the
BLE room when nonzero, else the WiFi room when nonzero, else fail. -/
def determineRoomID (idx : FingerprintIndex) (bleSignals : List BeaconSignal)
    (wifiSignals : List WiFiSignal) : Except ResolveError Int :=
  if bleSignals.length = 0 ∧ wifiSignals.length = 0 then
    .error .noSignalData
  else
    let bleRoomID := firstRoomBLE idx bleSignals
    let wifiRoomID := firstRoomWifi idx wifiSignals
    if bleRoomID ≠ 0 then .ok bleRoomID
    else if wifiRoomID ≠ 0 then .ok wifiRoomID
    else .error .noMatch

/-! ## The upload handler (`handleSignalsSubmit`) -/

/-- The three presence verdicts the handler can reach for an upload:
`present i` enters `updateUserPresence` with inquiry confidence `i`,
`absent` ends the session, `absentWithArchive` ends the session and archives
the upload as a negative sample. -/
inductive Disposition where
  | present : Int → Disposition
  | absent : Disposition
  | absentWithArchive : Disposition
deriving DecidableEq, Repr

/-- Observable outcome of one upload: the table afterwards, whether the
handler reached the success response, whether the inquiry (arbiter) server was
contacted, and which decision branch was taken (`none` when the handler
returned before deciding, i.e. on an inquiry fetch failure). -/
structure UploadOutcome where
  store : Store
  success : Bool
  fetchInvoked : Bool
  disposition : Option Disposition
deriving DecidableEq, Repr

/-- The decision-and-mutation core of `handleSignalsSubmit` (server.go), after
upload validation: the estimation confidence picks a branch; in `[20, 70]` the
inquiry server is contacted (`fetch`, a hard failure on error); `room` is the
result of `determineRoomID` on the presence branches; `dbFail` injects a
database error into the session mutation (a failed statement mutates nothing,
and the handler only logs it, still answering success); `archiveFail` injects
a failure of the negative-sample copy. -/
def handleUpload (store : Store) (userId estimationConfidence : Int)
    (fetch : Except Unit Int) (room : Except ResolveError Int)
    (dbFail archiveFail : Bool) (now : Int) : UploadOutcome :=
  if 20 ≤ estimationConfidence ∧ estimationConfidence ≤ 70 then
    match fetch with
    | .error _ => ⟨store, false, true, none⟩
    | .ok inquiryConfidence =>
      if inquiryConfidence ≤ estimationConfidence then
        match room with
        | .error _ => ⟨store, false, true, some (.present inquiryConfidence)⟩
        | .ok roomId =>
          if dbFail then ⟨store, true, true, some (.present inquiryConfidence)⟩
          else ⟨updateUserPresence store userId estimationConfidence inquiryConfidence
                  now roomId, true, true, some (.present inquiryConfidence)⟩
      else
        let store1 := if dbFail then store else endUserSession store userId now
        if archiveFail then ⟨store1, false, true, some .absentWithArchive⟩
        else ⟨store1, true, true, some .absentWithArchive⟩
  else if 70 < estimationConfidence then
    match room with
    | .error _ => ⟨store, false, false, some (.present 0)⟩
    | .ok roomId =>
      if dbFail then ⟨store, true, false, some (.present 0)⟩
      else ⟨updateUserPresence store userId estimationConfidence 0 now roomId,
              true, false, some (.present 0)⟩
  else
    if dbFail then ⟨store, true, false, some .absent⟩
    else ⟨endUserSession store userId now, true, false, some .absent⟩

/-! ## The stale-session reaper (`cleanUpOldSessions`) -/

/-- One tick's `SELECT user_id, last_seen FROM user_presence_sessions WHERE
end_time IS NULL AND last_seen < $1`: the user ids of the stale open rows. -/
def staleUsers (store : Store) (cutoff : Int) : List Int :=
  (store.filter fun s => s.endTime = none ∧ s.lastSeen < cutoff).map Session.userId

/-- One tick of `cleanUpOldSessions` (server.go): `cutoff = now - threshold`,
collect the stale open rows' users, then `endUserSession` each. The Go loop
reads the clock again for each `endUserSession`; `endNow` is that (single,
later) end timestamp. -/
def reaperTick (store : Store) (inactivityThreshold now endNow : Int) : Store :=
  (staleUsers store (now - inactivityThreshold)).foldl
    (fun st uid => endUserSession st uid endNow) store

/-! ## Operation sequences over the store -/

/-- One externally triggered operation against the sessions table: an upload
(which applies a disposition via `handleUpload`) or a reaper tick. -/
inductive Op where
  | upload (userId estimationConfidence : Int) (fetch : Except Unit Int)
      (room : Except ResolveError Int) (dbFail archiveFail : Bool) (now : Int)
  | tick (inactivityThreshold now endNow : Int)

/-- Apply one operation to the store. -/
def applyOp (store : Store) : Op → Store
  | .upload u e fetch room dbF aF now => (handleUpload store u e fetch room dbF aF now).store
  | .tick threshold now endNow => reaperTick store threshold now endNow

/-- Apply a sequence of operations starting from the empty table. -/
def applyOps (ops : List Op) : Store :=
  ops.foldl applyOp []

/-! ## Helper lemmas on the store operations -/

theorem openCount_nil (u : Int) : openCount [] u = 0 := rfl

theorem openCount_cons (s : Session) (store : Store) (u : Int) :
    openCount (s :: store) u =
      (if s.userId = u ∧ s.endTime = none then 1 else 0) + openCount store u := by
  simp only [openCount, List.filter_cons]
  split
  · split
    · simp [List.length_cons]; omega
    · simp_all
  · split
    · simp_all
    · simp

theorem openCount_append (s t : Store) (u : Int) :
    openCount (s ++ t) u = openCount s u + openCount t u := by
  simp [openCount, List.filter_append]

theorem openCount_endUserSession_self (store : Store) (u t : Int) :
    openCount (endUserSession store u t) u = 0 := by
  induction store with
  | nil => rfl
  | cons s rest ih =>
    simp only [endUserSession, List.map_cons] at ih ⊢
    rw [openCount_cons]
    split <;> simpa using ih

theorem openCount_endUserSession_other (store : Store) (u v t : Int) (hvu : v ≠ u) :
    openCount (endUserSession store u t) v = openCount store v := by
  induction store with
  | nil => rfl
  | cons s rest ih =>
    simp only [endUserSession, List.map_cons] at ih ⊢
    rw [openCount_cons, openCount_cons]
    split
    · rename_i h
      rw [ih]
      have hv : ¬(s.userId = v ∧ s.endTime = none) := fun hh => hvu (hh.1.symm.trans h.1)
      simp [hv]
    · rw [ih]

theorem openCount_endUserSession_le (store : Store) (u v t : Int) :
    openCount (endUserSession store u t) v ≤ openCount store v := by
  rcases eq_or_ne v u with rfl | hvu
  · rw [openCount_endUserSession_self]; exact Nat.zero_le _
  · rw [openCount_endUserSession_other store u v t hvu]

theorem openCount_updateLastSeen (store : Store) (u v t : Int) :
    openCount (updateLastSeen store u t) v = openCount store v := by
  induction store with
  | nil => rfl
  | cons s rest ih =>
    simp only [updateLastSeen, List.map_cons] at ih ⊢
    rw [openCount_cons, openCount_cons]
    split <;> rw [ih]

theorem openCount_startUserSession_self (store : Store) (u r t : Int) :
    openCount (startUserSession store u r t) u = openCount store u + 1 := by
  rw [startUserSession, openCount_append, openCount_cons, openCount_nil]
  rw [if_pos ⟨rfl, rfl⟩]

theorem openCount_startUserSession_other (store : Store) (u v r t : Int) (hvu : v ≠ u) :
    openCount (startUserSession store u r t) v = openCount store v := by
  rw [startUserSession, openCount_append, openCount_cons, openCount_nil]
  rw [if_neg (fun hh => hvu hh.1.symm)]
  omega

theorem getOpenSession_none_iff (store : Store) (u : Int) :
    getOpenSession store u = none ↔ openCount store u = 0 := by
  simp only [getOpenSession]
  induction store with
  | nil => simp [openCount_nil]
  | cons s rest ih =>
    rw [openCount_cons]
    by_cases h : s.userId = u ∧ s.endTime = none
    · rw [List.find?_cons_of_pos _ (by simpa using h), if_pos h]
      simp
    · rw [List.find?_cons_of_neg _ (by simpa using h), if_neg h]
      simpa using ih

theorem openCount_updateUserPresence_le (store : Store) (u e i t r v : Int)
    (hinv : ∀ w, openCount store w ≤ 1) :
    openCount (updateUserPresence store u e i t r) v ≤ 1 := by
  rw [updateUserPresence]
  split
  · exact le_trans (openCount_endUserSession_le store u v t) (hinv v)
  · cases hfind : getOpenSession store u with
    | none =>
      show openCount (startUserSession store u r t) v ≤ 1
      rcases eq_or_ne v u with rfl | hvu
      · rw [openCount_startUserSession_self]
        have h0 := (getOpenSession_none_iff store v).mp hfind
        omega
      · rw [openCount_startUserSession_other store u v r t hvu]
        exact hinv v
    | some s =>
      show openCount (updateLastSeen store u t) v ≤ 1
      rw [openCount_updateLastSeen]
      exact hinv v

theorem openCount_foldl_end_le (users : List Int) (store : Store) (endNow v : Int) :
    openCount (users.foldl (fun st uid => endUserSession st uid endNow) store) v ≤
      openCount store v := by
  induction users generalizing store with
  | nil => exact le_refl _
  | cons w ws ih =>
    exact le_trans (ih (endUserSession store w endNow))
      (openCount_endUserSession_le store w v endNow)

theorem openCount_reaperTick_le (store : Store) (threshold now endNow v : Int) :
    openCount (reaperTick store threshold now endNow) v ≤ openCount store v :=
  openCount_foldl_end_le _ store endNow v

/-- The store after one upload is either unchanged, or the result of one
`endUserSession`, or the result of one `updateUserPresence`. -/
theorem handleUpload_store_cases (store : Store) (u e : Int) (fetch : Except Unit Int)
    (room : Except ResolveError Int) (dbF aF : Bool) (now : Int) :
    (handleUpload store u e fetch room dbF aF now).store = store ∨
    (handleUpload store u e fetch room dbF aF now).store = endUserSession store u now ∨
    ∃ i r, (handleUpload store u e fetch room dbF aF now).store =
      updateUserPresence store u e i now r := by
  by_cases h1 : 20 ≤ e ∧ e ≤ 70
  · cases fetch with
    | error err => left; simp [handleUpload, h1]
    | ok i =>
      by_cases h2 : i ≤ e
      · cases room with
        | error err => left; simp [handleUpload, h1, h2]
        | ok r =>
          cases dbF
          · right; right; exact ⟨i, r, by simp [handleUpload, h1, h2]⟩
          · left; simp [handleUpload, h1, h2]
      · cases dbF
        · right; left; cases aF <;> simp [handleUpload, h1, h2]
        · left; cases aF <;> simp [handleUpload, h1, h2]
  · by_cases h3 : 70 < e
    · cases room with
      | error err => left; simp [handleUpload, h1, h3]
      | ok r =>
        cases dbF
        · right; right; exact ⟨0, r, by simp [handleUpload, h1, h3]⟩
        · left; simp [handleUpload, h1, h3]
    · cases dbF
      · right; left; simp [handleUpload, h1, h3]
      · left; simp [handleUpload, h1, h3]

theorem openCount_handleUpload_le (store : Store) (u e : Int) (fetch : Except Unit Int)
    (room : Except ResolveError Int) (dbF aF : Bool) (now v : Int)
    (hinv : ∀ w, openCount store w ≤ 1) :
    openCount (handleUpload store u e fetch room dbF aF now).store v ≤ 1 := by
  rcases handleUpload_store_cases store u e fetch room dbF aF now with h | h | ⟨i, r, h⟩
  · rw [h]; exact hinv v
  · rw [h]; exact le_trans (openCount_endUserSession_le store u v now) (hinv v)
  · rw [h]; exact openCount_updateUserPresence_le store u e i now r v hinv

theorem openCount_applyOp_le (store : Store) (op : Op)
    (hinv : ∀ w, openCount store w ≤ 1) (v : Int) :
    openCount (applyOp store op) v ≤ 1 := by
  cases op with
  | upload u e fetch room dbF aF now =>
    exact openCount_handleUpload_le store u e fetch room dbF aF now v hinv
  | tick threshold now endNow =>
    exact le_trans (openCount_reaperTick_le store threshold now endNow v) (hinv v)

theorem foldl_applyOp_openCount_le (ops : List Op) (store : Store)
    (hinv : ∀ w, openCount store w ≤ 1) (v : Int) :
    openCount (ops.foldl applyOp store) v ≤ 1 := by
  induction ops generalizing store with
  | nil => exact hinv v
  | cons op rest ih => exact ih (applyOp store op) (openCount_applyOp_le store op hinv)

/-- C2: starting from an empty store, after every sequence of operations
(uploads applying dispositions — session start, end, heartbeat — and reaper
ticks), every user has at most one `PresenceSession` row with `end_time`
unset. -/
theorem single_open_session_invariant (ops : List Op) (u : Int) :
    openCount (applyOps ops) u ≤ 1 :=
  foldl_applyOp_openCount_le ops []
    (fun w => by rw [openCount_nil]; exact Nat.zero_le 1) u

theorem endUserSession_length (store : Store) (u t : Int) :
    (endUserSession store u t).length = store.length := by
  simp [endUserSession]

theorem updateLastSeen_length (store : Store) (u t : Int) :
    (updateLastSeen store u t).length = store.length := by
  simp [updateLastSeen]

theorem openCount_eq_zero_forall (store : Store) (u : Int) (h : openCount store u = 0) :
    ∀ s ∈ store, ¬(s.userId = u ∧ s.endTime = none) := by
  intro s hs hc
  have hnil : (store.filter fun s => decide (s.userId = u ∧ s.endTime = none)) = [] :=
    List.length_eq_zero.mp h
  have hmem : s ∈ store.filter fun s => decide (s.userId = u ∧ s.endTime = none) :=
    List.mem_filter.mpr ⟨hs, by simpa using hc⟩
  rw [hnil] at hmem
  exact absurd hmem (List.not_mem_nil s)

/-- C6: `EndSession(u, t)` is idempotent — applying it twice yields the same
store as applying it once — and applying it when the user has no open session
is a no-op (the conditioned `UPDATE` affects zero rows, which is not an
error). -/
theorem endSession_idempotent (store : Store) (u t : Int) :
    endUserSession (endUserSession store u t) u t = endUserSession store u t ∧
    (openCount store u = 0 → endUserSession store u t = store) := by
  constructor
  · simp only [endUserSession, List.map_map]
    refine List.map_congr_left fun s hs => ?_
    by_cases h : s.userId = u ∧ s.endTime = none
    · simp [Function.comp_apply, h]
    · simp [Function.comp_apply, h]
  · intro h0
    have hall := openCount_eq_zero_forall store u h0
    simp only [endUserSession]
    conv_rhs => rw [← List.map_id store]
    exact List.map_congr_left fun s hs => by simp [hall s hs]

/-- Witness for C6: a store whose only row for user 1 is already closed; the
double application agrees with the single one, and the single application is a
no-op. -/
theorem endSession_idempotent_witness :
    endUserSession (endUserSession [⟨1, 5, 10, 10, some 20⟩] 1 50) 1 50 =
      endUserSession [⟨1, 5, 10, 10, some 20⟩] 1 50 ∧
    endUserSession [⟨1, 5, 10, 10, some 20⟩] 1 50 = [⟨1, 5, 10, 10, some 20⟩] :=
  ⟨(endSession_idempotent [⟨1, 5, 10, 10, some 20⟩] 1 50).1,
   (endSession_idempotent [⟨1, 5, 10, 10, some 20⟩] 1 50).2 (by decide)⟩

/-- C10: `EndSession(user, t)` closes every open session of that user in one
conditioned `UPDATE` — afterwards the user has zero open rows, even from a
state with several — while rows of other users are untouched. -/
theorem endSession_closes_all (store : Store) (u t : Int) :
    openCount (endUserSession store u t) u = 0 ∧
    (endUserSession store u t).length = store.length ∧
    ∀ i : Fin store.length, (store.get i).userId ≠ u →
      (endUserSession store u t).get ⟨i, by rw [endUserSession_length]; exact i.isLt⟩ =
        store.get i := by
  refine ⟨openCount_endUserSession_self store u t, endUserSession_length store u t, ?_⟩
  intro i hne
  simp only [endUserSession, List.get_eq_getElem, List.getElem_map]
  rw [if_neg (fun hc => hne hc.1)]

/-- Witness for C10: a broken state with two open rows of user 1 and one open
row of user 2; ending user 1 closes both of user 1's rows and leaves user 2's
row exactly as it was. -/
theorem endSession_closes_all_witness :
    openCount (endUserSession [⟨1, 5, 10, 10, none⟩, ⟨2, 6, 11, 11, none⟩,
        ⟨1, 7, 12, 12, none⟩] 1 50) 1 = 0 ∧
    (endUserSession [⟨1, 5, 10, 10, none⟩, ⟨2, 6, 11, 11, none⟩,
        ⟨1, 7, 12, 12, none⟩] 1 50).get ⟨1, by decide⟩ = ⟨2, 6, 11, 11, none⟩ := by
  have h := endSession_closes_all
    [⟨1, 5, 10, 10, none⟩, ⟨2, 6, 11, 11, none⟩, ⟨1, 7, 12, 12, none⟩] 1 50
  exact ⟨h.1, h.2.2 ⟨1, by decide⟩ (by decide)⟩

/-- C5: Heartbeat frame property. `updateLastSeen` only rewrites `last_seen`
on the user's open rows: user, room, start and end times are untouched (in
particular `room_id` stays the room stored at session start), rows that are
not the user's open session are entirely unchanged, and a second heartbeat at
`t2` after one at `t1` leaves exactly the state of a single heartbeat at
`t2`. -/
theorem heartbeat_frame (store : Store) (u t1 t2 : Int) :
    (∀ i : Fin store.length,
      ((updateLastSeen store u t2).get
          ⟨i, by rw [updateLastSeen_length]; exact i.isLt⟩).userId =
        (store.get i).userId ∧
      ((updateLastSeen store u t2).get
          ⟨i, by rw [updateLastSeen_length]; exact i.isLt⟩).roomId =
        (store.get i).roomId ∧
      ((updateLastSeen store u t2).get
          ⟨i, by rw [updateLastSeen_length]; exact i.isLt⟩).startTime =
        (store.get i).startTime ∧
      ((updateLastSeen store u t2).get
          ⟨i, by rw [updateLastSeen_length]; exact i.isLt⟩).endTime =
        (store.get i).endTime ∧
      ((store.get i).userId = u ∧ (store.get i).endTime = none →
        ((updateLastSeen store u t2).get
            ⟨i, by rw [updateLastSeen_length]; exact i.isLt⟩).lastSeen = t2) ∧
      (¬((store.get i).userId = u ∧ (store.get i).endTime = none) →
        (updateLastSeen store u t2).get
            ⟨i, by rw [updateLastSeen_length]; exact i.isLt⟩ = store.get i)) ∧
    updateLastSeen (updateLastSeen store u t1) u t2 = updateLastSeen store u t2 := by
  constructor
  · intro i
    simp only [updateLastSeen, List.get_eq_getElem, List.getElem_map]
    by_cases h : (store.get i).userId = u ∧ (store.get i).endTime = none
    · rw [List.get_eq_getElem] at h
      rw [if_pos h]
      exact ⟨rfl, rfl, rfl, h.2.symm ▸ rfl, fun _ => rfl, fun hc => absurd h hc⟩
    · rw [List.get_eq_getElem] at h
      rw [if_neg h]
      exact ⟨rfl, rfl, rfl, rfl, fun hc => absurd hc h, fun _ => rfl⟩
  · simp only [updateLastSeen, List.map_map]
    refine List.map_congr_left fun s hs => ?_
    by_cases h : s.userId = u ∧ s.endTime = none
    · simp [Function.comp_apply, h]
    · simp [Function.comp_apply, h]

/-- Witness for C5: user 1 has an open session in room 5 started at 10; two
heartbeats at 30 then 40 leave `last_seen = 40` and everything else — room 5
included — as at session start, and user 2's closed row is untouched. -/
theorem heartbeat_frame_witness :
    ((updateLastSeen [⟨1, 5, 10, 10, none⟩, ⟨2, 6, 11, 12, some 13⟩] 1 40).get
        ⟨0, by decide⟩).lastSeen = 40 ∧
    ((updateLastSeen [⟨1, 5, 10, 10, none⟩, ⟨2, 6, 11, 12, some 13⟩] 1 40).get
        ⟨0, by decide⟩).roomId = 5 ∧
    (updateLastSeen [⟨1, 5, 10, 10, none⟩, ⟨2, 6, 11, 12, some 13⟩] 1 40).get
        ⟨1, by decide⟩ = ⟨2, 6, 11, 12, some 13⟩ ∧
    updateLastSeen (updateLastSeen [⟨1, 5, 10, 10, none⟩, ⟨2, 6, 11, 12, some 13⟩] 1 30)
        1 40 = updateLastSeen [⟨1, 5, 10, 10, none⟩, ⟨2, 6, 11, 12, some 13⟩] 1 40 := by
  have h := heartbeat_frame [⟨1, 5, 10, 10, none⟩, ⟨2, 6, 11, 12, some 13⟩] 1 30 40
  exact ⟨(h.1 ⟨0, by decide⟩).2.2.2.2.1 (by decide),
    (h.1 ⟨0, by decide⟩).2.1,
    (h.1 ⟨1, by decide⟩).2.2.2.2.2 (by decide),
    h.2⟩

theorem two_mem_one_lt_length {α : Type} (l : List α) (a b : α) (ha : a ∈ l) (hb : b ∈ l)
    (hne : a ≠ b) : 1 < l.length := by
  induction l with
  | nil => cases ha
  | cons x xs ih =>
    rcases List.mem_cons.mp ha with rfl | ha1
    · rcases List.mem_cons.mp hb with rfl | hb1
      · exact absurd rfl hne
      · have hpos : 0 < xs.length := List.length_pos_of_mem hb1
        rw [List.length_cons]; omega
    · have hpos : 0 < xs.length := List.length_pos_of_mem ha1
      rw [List.length_cons]; omega

/-- Under the single-open-session bound, a user's open row is unique as a
value. -/
theorem open_row_unique (store : Store) (u : Int) (h : openCount store u ≤ 1)
    {s1 s2 : Session} (h1 : s1 ∈ store) (h2 : s2 ∈ store)
    (ho1 : s1.userId = u ∧ s1.endTime = none) (ho2 : s2.userId = u ∧ s2.endTime = none) :
    s1 = s2 := by
  by_contra hne
  have hm1 : s1 ∈ store.filter fun s => decide (s.userId = u ∧ s.endTime = none) :=
    List.mem_filter.mpr ⟨h1, by simpa using ho1⟩
  have hm2 : s2 ∈ store.filter fun s => decide (s.userId = u ∧ s.endTime = none) :=
    List.mem_filter.mpr ⟨h2, by simpa using ho2⟩
  have hlt := two_mem_one_lt_length _ s1 s2 hm1 hm2 hne
  simp only [openCount] at h
  omega

/-- The reaper's end loop, as one pointwise map: a row is closed exactly when
it is open and its user was collected by the tick's query. -/
theorem foldl_end_eq_map (users : List Int) (store : Store) (endNow : Int) :
    users.foldl (fun st uid => endUserSession st uid endNow) store =
      store.map fun s =>
        if s.endTime = none ∧ s.userId ∈ users
        then { s with endTime := some endNow } else s := by
  induction users generalizing store with
  | nil =>
    rw [List.foldl_nil]
    conv_lhs => rw [← List.map_id store]
    exact List.map_congr_left fun s hs => by simp
  | cons w ws ih =>
    rw [List.foldl_cons, ih]
    simp only [endUserSession, List.map_map]
    refine List.map_congr_left fun s hs => ?_
    by_cases h1 : s.userId = w ∧ s.endTime = none
    · simp [Function.comp_apply, h1.1, h1.2]
    · by_cases h2 : s.endTime = none
      · have hw : s.userId ≠ w := fun hc => h1 ⟨hc, h2⟩
        simp [Function.comp_apply, h1, h2, List.mem_cons, hw]
      · simp [Function.comp_apply, h1, h2]

theorem reaperTick_eq_map (store : Store) (threshold now endNow : Int) :
    reaperTick store threshold now endNow =
      store.map fun s =>
        if s.endTime = none ∧ s.userId ∈ staleUsers store (now - threshold)
        then { s with endTime := some endNow } else s :=
  foldl_end_eq_map _ store endNow

theorem reaperTick_length (store : Store) (threshold now endNow : Int) :
    (reaperTick store threshold now endNow).length = store.length := by
  rw [reaperTick_eq_map]; simp

theorem mem_staleUsers_iff (store : Store) (cutoff v : Int) :
    v ∈ staleUsers store cutoff ↔
      ∃ s ∈ store, s.userId = v ∧ s.endTime = none ∧ s.lastSeen < cutoff := by
  simp only [staleUsers, List.mem_map, List.mem_filter]
  constructor
  · rintro ⟨s, ⟨hs, hcond⟩, rfl⟩
    exact ⟨s, hs, rfl, by simpa using hcond⟩
  · rintro ⟨s, hs, rfl, hopen, hstale⟩
    exact ⟨s, ⟨hs, by simp [hopen, hstale]⟩, rfl⟩

/-- C4: the tick's query selects exactly the open rows with
`last_seen < now - threshold`; a tick at `t0 + Δ + ε` (ε > 0) closes an open
session whose `last_seen` is `t0`, while a tick at `t0 + Δ - ε` leaves it
untouched (given the single-open-session bound for its user). -/
theorem reaper_boundary (store : Store) (threshold t0 ε endNow : Int)
    (i : Fin store.length) (hopen : (store.get i).endTime = none)
    (hseen : (store.get i).lastSeen = t0) (hε : 0 < ε) :
    (∀ now v, v ∈ staleUsers store (now - threshold) ↔
      ∃ s ∈ store, s.userId = v ∧ s.endTime = none ∧ s.lastSeen < now - threshold) ∧
    ((reaperTick store threshold (t0 + threshold + ε) endNow).get
        ⟨i, by rw [reaperTick_length]; exact i.isLt⟩).endTime = some endNow ∧
    (openCount store (store.get i).userId ≤ 1 →
      (reaperTick store threshold (t0 + threshold - ε) endNow).get
        ⟨i, by rw [reaperTick_length]; exact i.isLt⟩ = store.get i) := by
  refine ⟨fun now v => mem_staleUsers_iff store (now - threshold) v, ?_, ?_⟩
  · have hmem : (store.get i).userId ∈
        staleUsers store (t0 + threshold + ε - threshold) := by
      refine (mem_staleUsers_iff store _ _).mpr ⟨store.get i, List.get_mem store i.1 i.2, rfl,
        hopen, ?_⟩
      rw [hseen]; omega
    simp only [reaperTick_eq_map, List.get_eq_getElem, List.getElem_map]
    rw [List.get_eq_getElem] at hopen hmem
    rw [if_pos ⟨hopen, hmem⟩]
  · intro hone
    have hnmem : (store.get i).userId ∉
        staleUsers store (t0 + threshold - ε - threshold) := by
      intro hmem
      rcases (mem_staleUsers_iff store _ _).mp hmem with ⟨s, hs, huid, hsopen, hstale⟩
      have heq : s = store.get i :=
        open_row_unique store (store.get i).userId hone hs (List.get_mem store i.1 i.2)
          ⟨huid, hsopen⟩ ⟨rfl, hopen⟩
      rw [heq, hseen] at hstale
      omega
    simp only [reaperTick_eq_map, List.get_eq_getElem, List.getElem_map]
    rw [List.get_eq_getElem] at hnmem
    rw [if_neg (fun hc => hnmem hc.2)]

/-- Witness for C4: user 1's open session with `last_seen = 100` and threshold
21: a tick at 122 (= 100 + 21 + 1) closes it, a tick at 120 (= 100 + 21 - 1)
leaves it untouched, and the query selects user 1 exactly at the late tick. -/
theorem reaper_boundary_witness :
    ((reaperTick [⟨1, 5, 90, 100, none⟩] 21 122 123).get ⟨0, by decide⟩).endTime =
      some 123 ∧
    (reaperTick [⟨1, 5, 90, 100, none⟩] 21 120 121).get ⟨0, by decide⟩ =
      ⟨1, 5, 90, 100, none⟩ ∧
    (1 ∈ staleUsers [⟨1, 5, 90, 100, none⟩] (122 - 21) ↔
      ∃ s ∈ [(⟨1, 5, 90, 100, none⟩ : Session)], s.userId = 1 ∧ s.endTime = none ∧
        s.lastSeen < 122 - 21) := by
  have h := reaper_boundary [⟨1, 5, 90, 100, none⟩] 21 100 1 123 ⟨0, by decide⟩
    (by decide) (by decide) (by decide)
  have h2 := reaper_boundary [⟨1, 5, 90, 100, none⟩] 21 100 1 121 ⟨0, by decide⟩
    (by decide) (by decide) (by decide)
  exact ⟨h.2.1, h2.2.2 (by decide), h.1 122 1⟩

theorem firstRoomBLE_of_none (idx : FingerprintIndex) (l : List BeaconSignal)
    (h : ∀ b ∈ l, getRoomIDByBeacon idx b = none) : firstRoomBLE idx l = 0 := by
  induction l with
  | nil => rfl
  | cons b rest ih =>
    simp only [firstRoomBLE]
    rw [h b (List.mem_cons_self b rest)]
    exact ih fun b' hb' => h b' (List.mem_cons_of_mem b hb')

theorem firstRoomBLE_first_hit (idx : FingerprintIndex) (l1 : List BeaconSignal)
    (b : BeaconSignal) (l2 : List BeaconSignal) (r : Int)
    (h1 : ∀ b' ∈ l1, getRoomIDByBeacon idx b' = none)
    (hb : getRoomIDByBeacon idx b = some r) :
    firstRoomBLE idx (l1 ++ b :: l2) = r := by
  induction l1 with
  | nil =>
    rw [List.nil_append]
    simp only [firstRoomBLE]
    rw [hb]
  | cons x xs ih =>
    rw [List.cons_append]
    simp only [firstRoomBLE]
    rw [h1 x (List.mem_cons_self x xs)]
    exact ih fun b' hb' => h1 b' (List.mem_cons_of_mem x hb')

theorem firstRoomWifi_of_none (idx : FingerprintIndex) (l : List WiFiSignal)
    (h : ∀ w ∈ l, getRoomIDByWifi idx w = none) : firstRoomWifi idx l = 0 := by
  induction l with
  | nil => rfl
  | cons w rest ih =>
    simp only [firstRoomWifi]
    rw [h w (List.mem_cons_self w rest)]
    exact ih fun w' hw' => h w' (List.mem_cons_of_mem w hw')

theorem firstRoomWifi_first_hit (idx : FingerprintIndex) (l1 : List WiFiSignal)
    (w : WiFiSignal) (l2 : List WiFiSignal) (r : Int)
    (h1 : ∀ w' ∈ l1, getRoomIDByWifi idx w' = none)
    (hw : getRoomIDByWifi idx w = some r) :
    firstRoomWifi idx (l1 ++ w :: l2) = r := by
  induction l1 with
  | nil =>
    rw [List.nil_append]
    simp only [firstRoomWifi]
    rw [hw]
  | cons x xs ih =>
    rw [List.cons_append]
    simp only [firstRoomWifi]
    rw [h1 x (List.mem_cons_self x xs)]
    exact ih fun w' hw' => h1 w' (List.mem_cons_of_mem x hw')

/-- C3: the RoomResolver contract under an index that never stores room id 0
(0 being the Go sentinel for "no match"): `NoSignalData` exactly when both
lists are empty; the first BLE observation whose identifier matches (in upload
order) determines the room for any WiFi list, so any BLE match beats every
WiFi match; WiFi is scanned the same way only when no BLE observation
matches; with no match in either modality the result is `NoMatch`, never a
default room; and both lookups are case-insensitive — they depend only on the
case-folded identifier. -/
theorem resolver_contract (idx : FingerprintIndex)
    (hbz : ∀ k r, idx.beaconRoom k = some r → r ≠ 0)
    (hwz : ∀ k r, idx.wifiRoom k = some r → r ≠ 0)
    (bles : List BeaconSignal) (wifis : List WiFiSignal) :
    (determineRoomID idx bles wifis = .error .noSignalData ↔ bles = [] ∧ wifis = []) ∧
    (∀ l1 b l2 r, bles = l1 ++ b :: l2 →
      (∀ b' ∈ l1, getRoomIDByBeacon idx b' = none) →
      getRoomIDByBeacon idx b = some r →
      determineRoomID idx bles wifis = .ok r) ∧
    (∀ w1 w w2 r, (∀ b' ∈ bles, getRoomIDByBeacon idx b' = none) →
      wifis = w1 ++ w :: w2 →
      (∀ w' ∈ w1, getRoomIDByWifi idx w' = none) →
      getRoomIDByWifi idx w = some r →
      determineRoomID idx bles wifis = .ok r) ∧
    ((∀ b' ∈ bles, getRoomIDByBeacon idx b' = none) →
      (∀ w' ∈ wifis, getRoomIDByWifi idx w' = none) →
      ¬(bles = [] ∧ wifis = []) →
      determineRoomID idx bles wifis = .error .noMatch) ∧
    (∀ b b' : BeaconSignal, upperKey b.uuid = upperKey b'.uuid →
      getRoomIDByBeacon idx b = getRoomIDByBeacon idx b') ∧
    (∀ w w' : WiFiSignal, lowerKey w.bssid = lowerKey w'.bssid →
      getRoomIDByWifi idx w = getRoomIDByWifi idx w') := by
  refine ⟨⟨?_, ?_⟩, ?_, ?_, ?_, ?_, ?_⟩
  · intro h
    by_contra hne
    have hlen : ¬(bles.length = 0 ∧ wifis.length = 0) := by
      simpa [List.length_eq_zero] using hne
    rw [determineRoomID, if_neg hlen] at h
    dsimp only at h
    split at h
    · simp at h
    · split at h
      · simp at h
      · simp at h
  · rintro ⟨rfl, rfl⟩
    rfl
  · rintro l1 b l2 r rfl h1 hb
    have hlen : ¬((l1 ++ b :: l2).length = 0 ∧ wifis.length = 0) := by
      simp [List.length_append]
    have hfst := firstRoomBLE_first_hit idx l1 b l2 r h1 hb
    have hr : r ≠ 0 := hbz _ r hb
    rw [determineRoomID, if_neg hlen]
    simp only [hfst]
    rw [if_pos hr]
  · rintro w1 w w2 r hble rfl h1 hw
    have hlen : ¬(bles.length = 0 ∧ (w1 ++ w :: w2).length = 0) := by
      simp [List.length_append]
    have hble0 := firstRoomBLE_of_none idx bles hble
    have hfst := firstRoomWifi_first_hit idx w1 w w2 r h1 hw
    have hr : r ≠ 0 := hwz _ r hw
    rw [determineRoomID, if_neg hlen]
    simp only [hble0, hfst]
    rw [if_neg (by simp), if_pos hr]
  · intro hble hwifi hne
    have hlen : ¬(bles.length = 0 ∧ wifis.length = 0) := by
      simpa [List.length_eq_zero] using hne
    have hble0 := firstRoomBLE_of_none idx bles hble
    have hwifi0 := firstRoomWifi_of_none idx wifis hwifi
    rw [determineRoomID, if_neg hlen]
    simp only [hble0, hwifi0]
    rw [if_neg (by simp), if_neg (by simp)]
  · intro b b' h
    simp only [getRoomIDByBeacon, h]
  · intro w w' h
    simp only [getRoomIDByWifi, h]

/-- A concrete fingerprint index: beacon UUID "B" (case-folded) is room 7,
WiFi BSSID "x" (case-folded) is room 3. -/
def exampleIndex : FingerprintIndex where
  beaconRoom := fun k => if k = ['B'] then some 7 else none
  wifiRoom := fun k => if k = ['x'] then some 3 else none

/-- Witness for C3, the spec's precedence vector: BLE list
[UUID "a" (no match), UUID "b" (room 7)] with WiFi list [BSSID "X" (room 3)]
resolves to room 7 — the later BLE hit beats the earlier-resolving WiFi entry
— and two empty lists give `NoSignalData`. -/
theorem resolver_contract_witness :
    determineRoomID exampleIndex [⟨"a", -50⟩, ⟨"b", -60⟩] [⟨"X", -40⟩] = .ok 7 ∧
    determineRoomID exampleIndex [] [] = .error .noSignalData := by
  have hbz : ∀ k r, exampleIndex.beaconRoom k = some r → r ≠ 0 := by
    intro k r h
    simp only [exampleIndex] at h
    split at h <;> simp_all
    omega
  have hwz : ∀ k r, exampleIndex.wifiRoom k = some r → r ≠ 0 := by
    intro k r h
    simp only [exampleIndex] at h
    split at h <;> simp_all
    omega
  constructor
  · exact (resolver_contract exampleIndex hbz hwz [⟨"a", -50⟩, ⟨"b", -60⟩]
      [⟨"X", -40⟩]).2.1 [⟨"a", -50⟩] ⟨"b", -60⟩ [] 7 rfl
      (fun b' hb' => by rw [List.mem_singleton.mp hb']; decide) (by decide)
  · exact (resolver_contract exampleIndex hbz hwz [] []).1.mpr ⟨rfl, rfl⟩

/-- An index in which beacon "A" is stored with room id 0 and beacon "B" with
room 7. -/
def zeroRoomIndex : FingerprintIndex where
  beaconRoom := fun k => if k = ['A'] then some 0 else if k = ['B'] then some 7 else none
  wifiRoom := fun _ => none

/-- The same index with the room-0 entry for "A" removed (a true non-match). -/
def zeroFreeIndex : FingerprintIndex where
  beaconRoom := fun k => if k = ['B'] then some 7 else none
  wifiRoom := fun _ => none

/-- C9 counterexample: an index entry mapping beacon "a" to room 0 is NOT
treated exactly as if that observation had not matched. With the room-0 entry
present the BLE scan stops at "a" and the upload fails with `NoMatch`; with
"a" truly unmatched the same observation list resolves to room 7 through the
later beacon "b". -/
theorem zero_room_counterexample :
    determineRoomID zeroRoomIndex [⟨"a", -50⟩, ⟨"b", -60⟩] [] = .error .noMatch ∧
    determineRoomID zeroFreeIndex [⟨"a", -50⟩, ⟨"b", -60⟩] [] = .ok 7 :=
  ⟨rfl, rfl⟩

/-- C9 amended: a successful `determineRoomID` never returns room 0 (0 is the
in-band "no match" sentinel), and an upload whose only index matches map to
room 0 fails with `NoMatch`; but an index entry mapping an observed
identifier to room 0 terminates that modality's scan with the sentinel —
later observations in the same list are not consulted — rather than acting
like a non-match. -/
theorem zero_room_sentinel (idx : FingerprintIndex) (bles l1 l2 : List BeaconSignal)
    (b : BeaconSignal) (wifis : List WiFiSignal) (r : Int) :
    (determineRoomID idx bles wifis = .ok r → r ≠ 0) ∧
    ((∀ b' ∈ l1, getRoomIDByBeacon idx b' = none) →
      getRoomIDByBeacon idx b = some 0 →
      firstRoomBLE idx (l1 ++ b :: l2) = 0) ∧
    (firstRoomBLE idx bles = 0 → firstRoomWifi idx wifis = 0 →
      ¬(bles = [] ∧ wifis = []) →
      determineRoomID idx bles wifis = .error .noMatch) := by
  refine ⟨?_, ?_, ?_⟩
  · intro h
    rw [determineRoomID] at h
    split at h
    · simp at h
    · dsimp only at h
      split at h
      · rename_i hne
        rw [Except.ok.injEq] at h
        rw [← h]
        exact hne
      · split at h
        · rename_i hne
          rw [Except.ok.injEq] at h
          rw [← h]
          exact hne
        · simp at h
  · exact fun h1 hb => firstRoomBLE_first_hit idx l1 b l2 0 h1 hb
  · intro hble0 hwifi0 hne
    have hlen : ¬(bles.length = 0 ∧ wifis.length = 0) := by
      simpa [List.length_eq_zero] using hne
    rw [determineRoomID, if_neg hlen]
    simp only [hble0, hwifi0]
    rw [if_neg (by simp), if_neg (by simp)]

/-- Witness for C9's amended claim at the room-0 index: the scan of
[beacon "a" (room 0), beacon "b" (room 7)] stops at "a" with the sentinel, and
the upload fails with `NoMatch`. -/
theorem zero_room_sentinel_witness :
    firstRoomBLE zeroRoomIndex [⟨"a", -50⟩, ⟨"b", -60⟩] = 0 ∧
    determineRoomID zeroRoomIndex [⟨"a", -50⟩, ⟨"b", -60⟩] [] = .error .noMatch := by
  have h := zero_room_sentinel zeroRoomIndex [⟨"a", -50⟩, ⟨"b", -60⟩] []
    [⟨"b", -60⟩] ⟨"a", -50⟩ [] 7
  have hfst : firstRoomBLE zeroRoomIndex [⟨"a", -50⟩, ⟨"b", -60⟩] = 0 :=
    h.2.1 (fun b' hb' => absurd hb' (List.not_mem_nil b')) (by decide)
  exact ⟨hfst, h.2.2 hfst (by decide) (by simp)⟩

/-- C1: the fusion decision table. For an estimation confidence in 0–100:
below 20 the disposition is Absent and the inquiry server is never contacted;
in [20, 70] the inquiry server is contacted and, when it answers `i`, the
disposition is Present(i) when `e ≥ i` (ties resolve to Present) and
AbsentWithArchive when `e < i`; above 70 the disposition is Present(0) with no
inquiry contact. -/
theorem fusion_decision_table (store : Store) (u e : Int) (fetch : Except Unit Int)
    (room : Except ResolveError Int) (dbF aF : Bool) (now : Int)
    (hlo : 0 ≤ e) (hhi : e ≤ 100) :
    (e < 20 →
      (handleUpload store u e fetch room dbF aF now).fetchInvoked = false ∧
      (handleUpload store u e fetch room dbF aF now).disposition = some .absent) ∧
    (20 ≤ e → e ≤ 70 →
      (handleUpload store u e fetch room dbF aF now).fetchInvoked = true ∧
      ∀ i, fetch = .ok i →
        (handleUpload store u e fetch room dbF aF now).disposition =
          some (if i ≤ e then .present i else .absentWithArchive)) ∧
    (70 < e →
      (handleUpload store u e fetch room dbF aF now).fetchInvoked = false ∧
      (handleUpload store u e fetch room dbF aF now).disposition =
        some (.present 0)) := by
  refine ⟨?_, ?_, ?_⟩
  · intro h
    have h1 : ¬(20 ≤ e ∧ e ≤ 70) := by omega
    have h3 : ¬(70 < e) := by omega
    cases dbF <;> simp [handleUpload, h1, h3]
  · intro h20 h70
    have h1 : 20 ≤ e ∧ e ≤ 70 := ⟨h20, h70⟩
    constructor
    · rcases fetch with err | i
      · simp [handleUpload, h1]
      · by_cases h2 : i ≤ e
        · rcases room with err | r <;> cases dbF <;> simp [handleUpload, h1, h2]
        · cases dbF <;> cases aF <;> simp [handleUpload, h1, h2]
    · rintro i rfl
      by_cases h2 : i ≤ e
      · rw [if_pos h2]
        rcases room with err | r <;> cases dbF <;> simp [handleUpload, h1, h2]
      · rw [if_neg h2]
        cases dbF <;> cases aF <;> simp [handleUpload, h1, h2]
  · intro h
    have h1 : ¬(20 ≤ e ∧ e ≤ 70) := by omega
    rcases room with err | r <;> cases dbF <;> simp [handleUpload, h1, h]

/-- Witness for C1, the spec's fusion vectors plus the tie: estimation 15 is
Absent with no fetch; 45 against inquiry 40 is Present(40); 45 against 60 is
AbsentWithArchive; 45 against 45 (the tie) is Present(45); 85 is Present(0)
with no fetch. -/
theorem fusion_decision_table_witness :
    (handleUpload [] 1 15 (Except.ok 99) (Except.ok 7) false false 100).fetchInvoked =
      false ∧
    (handleUpload [] 1 15 (Except.ok 99) (Except.ok 7) false false 100).disposition =
      some .absent ∧
    (handleUpload [] 1 45 (Except.ok 40) (Except.ok 7) false false 100).disposition =
      some (.present 40) ∧
    (handleUpload [] 1 45 (Except.ok 60) (Except.ok 7) false false 100).disposition =
      some .absentWithArchive ∧
    (handleUpload [] 1 45 (Except.ok 45) (Except.ok 7) false false 100).disposition =
      some (.present 45) ∧
    (handleUpload [] 1 85 (Except.ok 99) (Except.ok 7) false false 100).fetchInvoked =
      false ∧
    (handleUpload [] 1 85 (Except.ok 99) (Except.ok 7) false false 100).disposition =
      some (.present 0) := by
  have h15 := fusion_decision_table [] 1 15 (Except.ok 99) (Except.ok 7) false false 100
    (by decide) (by decide)
  have h40 := fusion_decision_table [] 1 45 (Except.ok 40) (Except.ok 7) false false 100
    (by decide) (by decide)
  have h60 := fusion_decision_table [] 1 45 (Except.ok 60) (Except.ok 7) false false 100
    (by decide) (by decide)
  have h45 := fusion_decision_table [] 1 45 (Except.ok 45) (Except.ok 7) false false 100
    (by decide) (by decide)
  have h85 := fusion_decision_table [] 1 85 (Except.ok 99) (Except.ok 7) false false 100
    (by decide) (by decide)
  refine ⟨(h15.1 (by decide)).1, (h15.1 (by decide)).2, ?_, ?_, ?_,
    (h85.2.2 (by decide)).1, (h85.2.2 (by decide)).2⟩
  · simpa using (h40.2.1 (by decide) (by decide)).2 40 rfl
  · simpa using (h60.2.1 (by decide) (by decide)).2 60 rfl
  · simpa using (h45.2.1 (by decide) (by decide)).2 45 rfl

/-- C7: with the estimation confidence in [20, 70], a failed inquiry (arbiter)
fetch fails the whole upload: no session mutation is performed, no success
response is sent, and no disposition is substituted by default. -/
theorem arbiter_failure_atomic (store : Store) (u e : Int)
    (room : Except ResolveError Int) (dbF aF : Bool) (now : Int)
    (h20 : 20 ≤ e) (h70 : e ≤ 70) :
    handleUpload store u e (.error ()) room dbF aF now = ⟨store, false, true, none⟩ := by
  simp [handleUpload, h20, h70]

/-- Witness for C7 at estimation confidence 45 over a nonempty store. -/
theorem arbiter_failure_atomic_witness :
    handleUpload [⟨1, 5, 10, 10, none⟩] 1 45 (Except.error ()) (Except.ok 7) false false
      100 = ⟨[⟨1, 5, 10, 10, none⟩], false, true, none⟩ :=
  arbiter_failure_atomic [⟨1, 5, 10, 10, none⟩] 1 45 (Except.ok 7) false false 100
    (by decide) (by decide)

/-- A failed database statement in the session-mutation step never changes the
store, whatever branch the handler is in. -/
theorem handleUpload_dbFail_store (store : Store) (u e : Int) (fetch : Except Unit Int)
    (room : Except ResolveError Int) (aF : Bool) (now : Int) :
    (handleUpload store u e fetch room true aF now).store = store := by
  by_cases h1 : 20 ≤ e ∧ e ≤ 70
  · rcases fetch with err | i
    · simp [handleUpload, h1]
    · by_cases h2 : i ≤ e
      · rcases room with err | r <;> simp [handleUpload, h1, h2]
      · cases aF <;> simp [handleUpload, h1, h2]
  · by_cases h3 : 70 < e
    · rcases room with err | r <;> simp [handleUpload, h1, h3]
    · simp [handleUpload, h1, h3]

/-- C8 counterexample: not every failure in the per-upload path is surfaced as
a failed upload. When the session-mutation database statement fails
(`dbFail = true`) the handler only logs the error and still sends the success
response — e.g. estimation 15 with a failing `endUserSession` answers
success. -/
theorem error_surfacing_counterexample :
    ¬ (∀ (store : Store) (u e : Int) (fetch : Except Unit Int)
        (room : Except ResolveError Int) (aF : Bool) (now : Int),
        (handleUpload store u e fetch room true aF now).success = false) := by
  intro h
  exact absurd (h [] 1 15 (Except.ok 0) (Except.ok 7) false 100) (by decide)

/-- C8 amended: failures up to and including the arbiter fetch and room
resolution abort the upload with no session mutation; a failed
session-mutation statement never commits a partial update (the store is
unchanged) but is only logged — the upload still reports success; and an
archival failure in the AbsentWithArchive path fails the upload after the
session end was already committed. -/
theorem error_surfacing_amended (store : Store) (u e i r : Int)
    (fetch : Except Unit Int) (room : Except ResolveError Int) (aF : Bool)
    (now : Int) :
    (20 ≤ e → e ≤ 70 →
      handleUpload store u e (.error ()) room false aF now =
        ⟨store, false, true, none⟩) ∧
    (20 ≤ e → e ≤ 70 → i ≤ e →
      handleUpload store u e (.ok i) (.error .noMatch) false aF now =
        ⟨store, false, true, some (.present i)⟩) ∧
    (70 < e →
      handleUpload store u e fetch (.error .noMatch) false aF now =
        ⟨store, false, false, some (.present 0)⟩) ∧
    ((handleUpload store u e fetch room true aF now).store = store) ∧
    (e < 20 →
      handleUpload store u e fetch room true aF now =
        ⟨store, true, false, some .absent⟩) ∧
    (20 ≤ e → e ≤ 70 → i ≤ e →
      handleUpload store u e (.ok i) (.ok r) true aF now =
        ⟨store, true, true, some (.present i)⟩) ∧
    (20 ≤ e → e ≤ 70 → e < i →
      handleUpload store u e (.ok i) room true false now =
        ⟨store, true, true, some .absentWithArchive⟩) ∧
    (70 < e →
      handleUpload store u e fetch (.ok r) true aF now =
        ⟨store, true, false, some (.present 0)⟩) ∧
    (20 ≤ e → e ≤ 70 → e < i →
      handleUpload store u e (.ok i) room false true now =
        ⟨endUserSession store u now, false, true, some .absentWithArchive⟩) := by
  refine ⟨?_, ?_, ?_, handleUpload_dbFail_store store u e fetch room aF now,
    ?_, ?_, ?_, ?_, ?_⟩
  · intro h20 h70
    simp [handleUpload, h20, h70]
  · intro h20 h70 h2
    simp [handleUpload, h20, h70, h2]
  · intro h3
    have h1 : ¬(20 ≤ e ∧ e ≤ 70) := by omega
    rcases fetch with err | j <;> simp [handleUpload, h1, h3]
  · intro h
    have h1 : ¬(20 ≤ e ∧ e ≤ 70) := by omega
    have h3 : ¬(70 < e) := by omega
    rcases fetch with err | j <;> simp [handleUpload, h1, h3]
  · intro h20 h70 h2
    simp [handleUpload, h20, h70, h2]
  · intro h20 h70 h2
    have h2' : ¬(i ≤ e) := by omega
    simp [handleUpload, h20, h70, h2']
  · intro h3
    have h1 : ¬(20 ≤ e ∧ e ≤ 70) := by omega
    rcases fetch with err | j <;> simp [handleUpload, h1, h3]
  · intro h20 h70 h2
    have h2' : ¬(i ≤ e) := by omega
    simp [handleUpload, h20, h70, h2']

/-- Witness for C8's amended claim: user 1 has an open session; a failing
arbiter fetch aborts with no mutation; a failing heartbeat statement leaves
the store unchanged yet answers success; a failing negative-sample copy fails
the upload after the session end was committed. -/
theorem error_surfacing_amended_witness :
    handleUpload [⟨1, 5, 10, 10, none⟩] 1 45 (Except.error ()) (Except.ok 7) false false
      100 = ⟨[⟨1, 5, 10, 10, none⟩], false, true, none⟩ ∧
    handleUpload [⟨1, 5, 10, 10, none⟩] 1 45 (Except.ok 40) (Except.ok 7) true false
      100 = ⟨[⟨1, 5, 10, 10, none⟩], true, true, some (.present 40)⟩ ∧
    handleUpload [⟨1, 5, 10, 10, none⟩] 1 45 (Except.ok 60) (Except.ok 7) false true
      100 = ⟨endUserSession [⟨1, 5, 10, 10, none⟩] 1 100, false, true,
        some .absentWithArchive⟩ := by
  have h40 := error_surfacing_amended [⟨1, 5, 10, 10, none⟩] 1 45 40 7
    (Except.error ()) (Except.ok 7) false 100
  have h60 := error_surfacing_amended [⟨1, 5, 10, 10, none⟩] 1 45 60 7
    (Except.ok 60) (Except.ok 7) true 100
  exact ⟨h40.1 (by decide) (by decide),
    h40.2.2.2.2.2.1 (by decide) (by decide) (by decide),
    h60.2.2.2.2.2.2.2.2 (by decide) (by decide) (by decide)⟩

end Elpis
